import Mathlib

/-!
Shallow embedding of the core of the kenyalaw scraper repository:

* `kenyalaw.py` — link extraction (`extract_alphabetical_links`), the
  asset-size gate (`is_document_size_greater_than_zero`), and the
  fetch-and-persist routine `download_document_to_s3` with its process-wide
  `processed_urls` dedup set;
* `pineconeupsertion.py` — the indexer: the sqlite ledger operations, the
  per-document `process_and_upsert` pipeline and the `run_indexer` cycle.

External collaborators (network, S3, PDF extraction, the text splitter, the
vector store) are passed in as explicit environment records; all repository
logic is translated directly from the Python source.
-/

set_option autoImplicit false

namespace Scrapper

/-- Association-list lookup modelling dict / SQL primary-key access: the value
of the first pair whose key equals `k`. -/
def lget {α : Type} (k : String) : List (String × α) → Option α
  | [] => none
  | p :: ps => if p.1 = k then some p.2 else lget k ps

/-- True when the character sequence `pat` starts the character sequence
given as second argument. -/
def leadsWith : List Char → List Char → Bool
  | [], _ => true
  | _ :: _, [] => false
  | p :: ps, c :: cs => p == c && leadsWith ps cs

/-- True when `pat` occurs as a contiguous subsequence of the text. -/
def containsSeq (pat : List Char) : List Char → Bool
  | [] => pat.isEmpty
  | c :: cs => leadsWith pat (c :: cs) || containsSeq pat cs

/-- True when `pat` occurs as a substring of `s` (Python `pat in s`). -/
def containsSub (s pat : String) : Bool :=
  containsSeq pat.data s.data

/-- Remainder of the text after the leftmost occurrence of `pat`; `none` when
`pat` does not occur. -/
def afterSeq (pat : List Char) : List Char → Option (List Char)
  | [] => if pat.isEmpty then some [] else none
  | c :: cs => if leadsWith pat (c :: cs) then some ((c :: cs).drop pat.length) else afterSeq pat cs

/-- Split at every occurrence of the separator character, as Python
`s.split(sep)`: `"".split` gives `[""]`, separators at the ends give empty
fields. -/
def splitOnChar (sep : Char) : List Char → List (List Char)
  | [] => [[]]
  | c :: cs =>
    let r := splitOnChar sep cs
    if c == sep then [] :: r
    else
      match r with
      | [] => [[c]]
      | g :: gs => (c :: g) :: gs

/-- Text before the first `?` or `#`, i.e. the end of the path region of a
URL tail. -/
def stripQueryL (cs : List Char) : List Char :=
  cs.takeWhile (fun c => !(c == '?') && !(c == '#'))

/-- Path component of a URL as a character list: everything after the
authority (the text between `://` and the first `/` that follows), with query
and fragment stripped — Python `urlparse(url).path` for http(s) URLs. -/
def urlPathL (cs : List Char) : List Char :=
  match afterSeq [':', '/', '/'] cs with
  | none => stripQueryL cs
  | some rest => (stripQueryL rest).dropWhile (fun c => !(c == '/'))

/-- Path component of a URL, as Python `urlparse(url).path`. -/
def urlPath (url : String) : String :=
  String.mk (urlPathL url.data)

/-- Text after the last slash, as `os.path.basename`. -/
def basename (s : String) : String :=
  String.mk ((s.data.reverse.takeWhile (fun c => !(c == '/'))).reverse)

/-- Lowercasing character by character, Python `s.lower()` over ASCII. -/
def lowerS (s : String) : String :=
  String.mk (s.data.map Char.toLower)

/-- True when `suf` ends `s`, Python `s.endswith(suf)`. -/
def endsWithS (s suf : String) : Bool :=
  leadsWith suf.data.reverse s.data.reverse

/-- Python `filename.lower().endswith(('.pdf', '.doc', '.docx'))`. -/
def hasDocumentExt (f : String) : Bool :=
  endsWithS (lowerS f) ".pdf" || endsWithS (lowerS f) ".doc" || endsWithS (lowerS f) ".docx"

/-- Whitespace stripped from both ends, Python `s.strip()`. -/
def trimS (s : String) : String :=
  String.mk (((s.data.dropWhile Char.isWhitespace).reverse.dropWhile Char.isWhitespace).reverse)

/-- Filename derivation inside `download_document_to_s3` (kenyalaw.py
lines 322-337, identical in kenyalaw2.py). `t` is `int(time.time())`.
`none` models the uncaught IndexError when the `/source` path has exactly six
segments: the guard `len(path_parts) >= 6` protects the reads of
`path_parts[4]` and `path_parts[5]` but not of `path_parts[6]`, and the
exception is caught only by the outermost handler, which returns `None`. -/
def deriveFilename (url : String) (t : Nat) : Option String :=
  if containsSub url "/source" && containsSub url "kenyalaw.org" then
    let parts := splitOnChar '/' (urlPathL url.data)
    if 6 ≤ parts.length then
      if 7 ≤ parts.length then
        some (String.mk (parts.getD 4 []) ++ "_" ++ String.mk (parts.getD 5 []) ++ "_" ++
          String.mk (parts.getD 6 []) ++ ".pdf")
      else
        none
    else
      some ("document_" ++ toString t ++ ".pdf")
  else
    let base := basename (urlPath url)
    let f := if base = "" then "document_" ++ toString t else base
    some (if hasDocumentExt f then f else f ++ ".pdf")

/-- Two-digit month formatting, Python `f"{m:02d}"` for months 1..12. -/
def month2 (m : Nat) : String :=
  if m < 10 then "0" ++ toString m else toString m

/-- Storage key `{folder}/{yearCtx}/{monthCtx}/{filename}`. In kenyalaw.py the
context is `datetime.now()` (`yearCtx = str(now.year)`,
`monthCtx = f"{now.month:02d}"`); in kenyalaw2.py it is the `year_name` and
`month_name` parameters. `none` when filename derivation raises. -/
def s3KeyOf (url folder yearCtx monthCtx : String) (t : Nat) : Option String :=
  (deriveFilename url t).map (fun f => folder ++ "/" ++ yearCtx ++ "/" ++ monthCtx ++ "/" ++ f)

/-- URLs whose derived filename is independent of the `int(time.time())`
fallback: either the `/source` Kenya Law shape with at least six path
segments, or any other URL whose path has a nonempty basename. -/
def timestampIndependent (url : String) : Bool :=
  if containsSub url "/source" && containsSub url "kenyalaw.org" then
    decide (6 ≤ (splitOnChar '/' (urlPathL url.data)).length)
  else
    basename (urlPath url) != ""

/-- External world of one `download_document_to_s3` call: the clock
(`int(time.time())` and `datetime.now()`), the `head_object` error behaviour
(`probeErr key = true` models a ClientError whose code is not 404/403, or any
other probe exception), and the HTTP download (`fetch url = none` models a
requests exception; `some (status, body)` an HTTP response, internal retries
of the adapter folded into the single observable attempt). -/
structure PersistEnv where
  time : Nat
  year : Nat
  month : Nat
  probeErr : String → Bool
  fetch : String → Option (Nat × List Nat)

/-- Mutable state touched by `download_document_to_s3`: the module-level
`processed_urls` set (kenyalaw.py line 47), the S3 bucket contents, and ghost
counters for the number of `head_object` probes and HTTP fetches performed. -/
structure PersistState where
  processed : List String
  store : List (String × List Nat)
  probeCount : Nat
  fetchCount : Nat
  deriving DecidableEq, Repr

def bucketName : String := "denningdata"

/-- Reference string `f"s3://{bucket_name}/{s3_key}"`. -/
def s3Url (key : String) : String := "s3://" ++ bucketName ++ "/" ++ key

/-- kenyalaw.py `download_document_to_s3` (lines 314-378). The
`processed_urls_lock` makes the membership test and insertion one atomic step,
which this sequential function models; a concurrent schedule of two calls is
observationally one of the two sequential orders, because after the visited
check the calls share no further state (the loser returns before touching the
store). Every failure path of the source returns `None` with the URL left in
`processed_urls`. -/
def download_document_to_s3 (env : PersistEnv) (url folder : String) (st : PersistState) :
    Option String × PersistState :=
  if url ∈ st.processed then (none, st)
  else
    let st1 : PersistState := { st with processed := url :: st.processed }
    match s3KeyOf url folder (toString env.year) (month2 env.month) env.time with
    | none => (none, st1)
    | some key =>
      let st2 : PersistState := { st1 with probeCount := st1.probeCount + 1 }
      if (lget key st2.store).isSome then (some (s3Url key), st2)
      else if env.probeErr key then (none, st2)
      else
        let st3 : PersistState := { st2 with fetchCount := st2.fetchCount + 1 }
        match env.fetch url with
        | none => (none, st3)
        | some sb =>
          if sb.1 = 200 then
            if sb.2.length = 0 then (none, st3)
            else (some (s3Url key), { st3 with store := (key, sb.2) :: st3.store })
          else (none, st3)

/-- kenyalaw.py `extract_alphabetical_links` (lines 259-260):
`[f"{url}?alphabet={chr(i)}" for i in range(ord('a'), ord('z') + 1)]`. -/
def extract_alphabetical_links (url : String) : List String :=
  (List.range' 97 26).map (fun i => url ++ "?alphabet=" ++ String.singleton (Char.ofNat i))

/-- Digits of the regex group `(\d+(\.\d+)?)` together with the unit, when the
pattern `(\d+(\.\d+)?)\s*(KB|MB)` (case-insensitive) matches starting exactly
at the head of `cs`. For this pattern the backtracking search of `re` is
deterministic: shortening the greedy `\d+` runs or skipping a present
`\.\d+` group leaves a digit or a dot where `\s*(KB|MB)` must match, which
always fails, so only the maximal-munch parse can succeed. The result is
(integer digits, fraction digits, unit-is-KB). -/
def sizeMatchAt (cs : List Char) : Option (List Char × List Char × Bool) :=
  let ds := cs.takeWhile Char.isDigit
  if ds.isEmpty then none
  else
    let rest := cs.drop ds.length
    let fr : List Char × List Char :=
      match rest with
      | '.' :: cs2 =>
        let fs := cs2.takeWhile Char.isDigit
        if fs.isEmpty then ([], rest) else (fs, cs2.drop fs.length)
      | _ => ([], rest)
    let rest3 := fr.2.dropWhile Char.isWhitespace
    match rest3 with
    | c1 :: c2 :: _ =>
      if (c1.toUpper == 'K' || c1.toUpper == 'M') && c2.toUpper == 'B' then
        some (ds, fr.1, c1.toUpper == 'K')
      else none
    | _ => none

/-- Leftmost match of the size pattern, as `re.search` finds it: try every
start position from the left. -/
def findSizeMatch : List Char → Option (List Char × List Char × Bool)
  | [] => none
  | c :: cs =>
    match sizeMatchAt (c :: cs) with
    | some r => some r
    | none => findSizeMatch cs

/-- Numeric value of a decimal digit string. -/
def digitsToNat (ds : List Char) : Nat :=
  ds.foldl (fun n c => n * 10 + (c.toNat - 48)) 0

/-- kenyalaw.py `is_document_size_greater_than_zero` (lines 277-285). The
float comparisons `size > 0` (KB) and `size > 0.001` (MB) are modelled
exactly on the parsed decimal `num / 10 ^ fracLen`; this agrees with double
precision on every size label that does not underflow below `1e-324`. -/
def is_document_size_greater_than_zero (text : String) : Bool :=
  if text = "" then true
  else
    match findSizeMatch text.data with
    | none => true
    | some m =>
      let num := digitsToNat (m.1 ++ m.2.1)
      if m.2.2 then decide (0 < num) else decide (10 ^ m.2.1.length < num * 1000)

/-- Row of the sqlite `processed` table (pineconeupsertion.py lines 47-56);
the `processed_at` timestamp column is not modelled. -/
structure Entry where
  status : String
  retryCount : Nat
  lastError : Option String
  fileType : Option String
  deriving DecidableEq, Repr

/-- The sqlite ledger: an association list keyed by the `key` PRIMARY KEY
column. -/
abbrev Ledger := List (String × Entry)

def MAX_RETRIES : Nat := 1

def BATCH_SIZE : Nat := 20

def UPSERT_BATCH : Nat := 25

/-- pineconeupsertion.py `already_processed` (lines 59-61). -/
def already_processed (key : String) (l : Ledger) : Bool :=
  (lget key l).isSome

/-- pineconeupsertion.py `mark_as_processed` (lines 63-71). The
`INSERT OR REPLACE` statement names only the columns
`(key, status, last_error, file_type, processed_at)`, so a replaced row takes
the `retry_count` column DEFAULT of 0. -/
def mark_as_processed (key status : String) (error fileType : Option String) (l : Ledger) : Ledger :=
  (key, ⟨status, 0, error, fileType⟩) :: l.filter (fun p => !(p.1 == key))

/-- pineconeupsertion.py `get_failed_files` (lines 73-83): keys whose row has
status `failed` and `retry_count < MAX_RETRIES`. -/
def get_failed_files (l : Ledger) : List String :=
  (l.filter (fun p => p.2.status == "failed" && decide (p.2.retryCount < MAX_RETRIES))).map Prod.fst

/-- pineconeupsertion.py `increment_retry_count` (lines 85-94): an UPDATE that
is a no-op when the key has no row. -/
def increment_retry_count (key : String) (l : Ledger) : Ledger :=
  l.map (fun p => if p.1 = key then (p.1, { p.2 with retryCount := p.2.retryCount + 1 }) else p)

/-- Character class `[\w\s\.\,\!\?\;\:\-\(\)]` of `clean_text`, over ASCII. -/
def keepChar (c : Char) : Bool :=
  c.isAlphanum || c == '_' || c.isWhitespace ||
    c == '.' || c == ',' || c == '!' || c == '?' || c == ';' || c == ':' ||
    c == '-' || c == '(' || c == ')'

/-- Collapse every maximal whitespace run to one space
(`re.sub(r'\s+', ' ', text)`); the flag records whether the previous
character was whitespace. -/
def collapseWs : List Char → Bool → List Char
  | [], _ => []
  | c :: cs, prevWs =>
    if c.isWhitespace then
      if prevWs then collapseWs cs true else ' ' :: collapseWs cs true
    else c :: collapseWs cs false

/-- pineconeupsertion.py `clean_text` (lines 102-108). -/
def clean_text (text : String) : String :=
  trimS (String.mk ((collapseWs text.data false).filter keepChar))

/-- External collaborators of one `process_and_upsert` call: the S3 download
(`none` = exception), PDF page extraction by PyPDFLoader (`none` = loader
exception, otherwise the page texts), the text splitter, and the outcome of
each `pc.add_documents` sub-batch call, indexed by key and sub-batch number. -/
structure IndexEnv where
  getObject : String → Option (List Nat)
  extractPages : List Nat → Option (List String)
  splitChunks : String → List String
  batchOk : String → Nat → Bool

/-- Status, last_error and file_type that `process_and_upsert`
(pineconeupsertion.py lines 127-243) records for `key`: every control path of
the source ends in exactly one `mark_as_processed` call, and these are its
arguments. The scratch-file size equals the downloaded byte count; Document
construction from a chunk (lines 188-203) is modelled as total, so the
`No valid documents` branch coincides with the empty-chunks branch.
Interpolated exception texts are abbreviated to their fixed prefix. -/
def processOutcome (env : IndexEnv) (key : String) : String × Option String × Option String :=
  match env.getObject key with
  | none => ("skipped", some "Download failed", some "Download Error")
  | some blob =>
    if blob.length < 50 then ("skipped", some "File too small", some "Small File")
    else
      match env.extractPages blob with
      | none => ("skipped", some "PDF processing failed", some "PDF Error")
      | some pages =>
        if pages.isEmpty then ("skipped", some "No content extracted", some "Empty PDF")
        else
          let fullText := String.intercalate " " pages
          if (trimS fullText).length < 10 then ("skipped", some "Minimal content", some "Low Content")
          else
            let chunks := env.splitChunks (clean_text fullText)
            if chunks.isEmpty then ("skipped", some "No chunks created", some "Chunking Failed")
            else
              let nBatches := (chunks.length + (UPSERT_BATCH - 1)) / UPSERT_BATCH
              let successfulBatches := (List.range nBatches).countP (fun i => env.batchOk key i)
              if 0 < successfulBatches then ("success", none, some "PDF")
              else ("skipped", some "All upsert batches failed", some "Upsert Failed")

/-- pineconeupsertion.py `process_and_upsert`: its only ledger effect is the
single `mark_as_processed` call described by `processOutcome`. -/
def process_and_upsert (env : IndexEnv) (key : String) (l : Ledger) : Ledger :=
  mark_as_processed key (processOutcome env key).1 (processOutcome env key).2.1
    (processOutcome env key).2.2 l

/-- Selection of new files in `run_indexer` (pineconeupsertion.py
lines 289-292) followed by the `new_files[:BATCH_SIZE]` slice of line 298;
`listing` is the key sequence of `list_s3_files_sorted`, in LastModified
order. -/
def newFiles (listing : List String) (l : Ledger) : List String :=
  (listing.filter (fun k => endsWithS k ".pdf" && !(already_processed k l))).take BATCH_SIZE

/-- One cycle of the `run_indexer` loop (pineconeupsertion.py lines 271-306):
retry at most five failed entries (increment the retry count, then process),
then process the new `.pdf` keys up to the batch cap. The second component is
the trace of keys passed to `process_and_upsert` during the cycle. -/
def runCycle (env : IndexEnv) (listing : List String) (l : Ledger) : Ledger × List String :=
  let toRetry := (get_failed_files l).take 5
  let l1 := toRetry.foldl (fun acc k => process_and_upsert env k (increment_retry_count k acc)) l
  let news := newFiles listing l1
  let l2 := news.foldl (fun acc k => process_and_upsert env k acc) l1
  (l2, toRetry ++ news)

/-- Several successive cycles of `run_indexer`, with a per-cycle environment
and storage listing; the second component concatenates the per-cycle traces. -/
def runCycles (envs : Nat → IndexEnv) (listings : Nat → List String) :
    Nat → Ledger → Ledger × List String
  | 0, l => (l, [])
  | n + 1, l =>
    let r := runCycle (envs n) (listings n) l
    let r2 := runCycles envs listings n r.1
    (r2.1, r.2 ++ r2.2)

/-- Sample network environment: every URL downloads with status 200 and a
one-byte body, the existence probe never errors, the clock reads June 2025. -/
def envOk : PersistEnv :=
  { time := 0, year := 2025, month := 6, probeErr := fun _ => false,
    fetch := fun _ => some (200, [7]) }

/-- Sample asset URL outside the Kenya Law `/source` shape. -/
def urlA : String := "https://example.org/a.pdf"

/-- Fresh persister state: empty visited set, empty bucket. -/
def st0 : PersistState := ⟨[], [], 0, 0⟩

/-- First of two consecutive persist calls on `urlA`. -/
def persistRun1 : Option String × PersistState :=
  download_document_to_s3 envOk urlA "documents" st0

/-- Second of two consecutive persist calls on `urlA`. -/
def persistRun2 : Option String × PersistState :=
  download_document_to_s3 envOk urlA "documents" persistRun1.2


/-- Keys column of the ledger. -/
def ledgerKeys (l : Ledger) : List String := l.map Prod.fst

/-- The `key` column is a PRIMARY KEY, so a ledger reachable from the sqlite
table has pairwise distinct keys. -/
def NodupKeys (l : Ledger) : Prop := (ledgerKeys l).Nodup

/-- Indexer environment in which every S3 download raises. -/
def envDlFail : IndexEnv :=
  { getObject := fun _ => none, extractPages := fun _ => none,
    splitChunks := fun _ => [], batchOk := fun _ _ => false }

/-- Indexer environment in which every download yields a three-byte blob,
below the 50-byte minimum. -/
def envSmallBlob : IndexEnv :=
  { getObject := fun _ => some [1, 2, 3], extractPages := fun _ => none,
    splitChunks := fun _ => [], batchOk := fun _ _ => false }

/-- Indexer environment in which every download yields a 60-byte blob whose
extracted text splits into 80 chunks (4 upsert sub-batches of 25), and only
sub-batches 1 and 2 of the 4 succeed. -/
def envRich : IndexEnv :=
  { getObject := fun _ => some (List.replicate 60 0),
    extractPages := fun _ => some ["This is a test document"],
    splitChunks := fun _ => List.replicate 80 "x",
    batchOk := fun _ i => decide (i = 1) || decide (i = 2) }

/-- Ledger holding one entry with status `failed` and retry count 0, i.e. an
entry eligible for re-attempt. -/
def ledgerFailed : Ledger := [("k.pdf", ⟨"failed", 0, none, none⟩)]


/-! ## Theorems -/

/-- A call of `download_document_to_s3` on a URL already in the visited set
returns `None` with the state untouched. Shared workhorse for the dedup
claims. -/
theorem download_of_mem_processed (env : PersistEnv) (url folder : String) (st : PersistState)
    (h : url ∈ st.processed) :
    download_document_to_s3 env url folder st = (none, st) := by
  simp [download_document_to_s3, h]

/-- Any call of `download_document_to_s3` leaves the URL in the visited set. -/
theorem mem_processed_after (env : PersistEnv) (url folder : String) (st : PersistState) :
    url ∈ (download_document_to_s3 env url folder st).2.processed := by
  unfold download_document_to_s3
  by_cases h : url ∈ st.processed
  · simp [h]
  · simp only [h, if_false]
    split
    · simp
    · split
      · simp
      · split
        · simp
        · split
          · simp
          · split
            · split <;> simp
            · simp

/-- C7: for every base URL `u`, `extract_alphabetical_links u` returns exactly
26 URLs, where the i-th URL is `u ++ "?alphabet=" ++ ⟨the i-th lowercase
letter⟩` — so the list runs in order from `a` through `z`. -/
theorem extract_alphabetical_links_spec (url : String) :
    (extract_alphabetical_links url).length = 26 ∧
      ∀ i : Nat, i < 26 →
        (extract_alphabetical_links url).get? i =
          some (url ++ "?alphabet=" ++ String.singleton (Char.ofNat (97 + i))) := by
  constructor
  · simp [extract_alphabetical_links]
  · intro i hi
    interval_cases i <;> rfl

/-- Witness for C7 at a concrete URL and index 25 (letter `z`). -/
theorem extract_alphabetical_links_spec_witness :
    (extract_alphabetical_links "https://new.kenyalaw.org/judgments/").length = 26 ∧
      (extract_alphabetical_links "https://new.kenyalaw.org/judgments/").get? 25 =
        some ("https://new.kenyalaw.org/judgments/" ++ "?alphabet=" ++
          String.singleton (Char.ofNat (97 + 25))) :=
  ⟨(extract_alphabetical_links_spec _).1,
    (extract_alphabetical_links_spec _).2 25 (by decide)⟩

/-- C8: the asset-size gate rejects the label `0 KB`, accepts the label
`45 KB`, and accepts every label text — the empty label included — in which
the `NNN KB/MB` size pattern does not occur. -/
theorem size_gate_spec :
    is_document_size_greater_than_zero "0 KB" = false ∧
      is_document_size_greater_than_zero "45 KB" = true ∧
      ∀ text : String, findSizeMatch text.data = none →
        is_document_size_greater_than_zero text = true := by
  refine ⟨by decide, by decide, ?_⟩
  intro text h
  by_cases ht : text = ""
  · simp [is_document_size_greater_than_zero, ht]
  · simp [is_document_size_greater_than_zero, ht, h]

/-- Witness for C8: a concrete size-free label passes the gate. -/
theorem size_gate_spec_witness :
    is_document_size_greater_than_zero "Download PDF" = true :=
  size_gate_spec.2.2 "Download PDF" (by decide)

/-- C6: for an asset URL already present in the visited set,
`download_document_to_s3` returns `None` immediately and the state is exactly
the input state: no key is computed, the probe counter, fetch counter, store
and visited set are unchanged. -/
theorem download_already_visited (env : PersistEnv) (url folder : String) (st : PersistState)
    (h : url ∈ st.processed) :
    download_document_to_s3 env url folder st = (none, st) :=
  download_of_mem_processed env url folder st h

/-- Witness for C6 at a concrete visited URL and state. -/
theorem download_already_visited_witness :
    download_document_to_s3 envOk urlA "documents" ⟨[urlA], [], 3, 4⟩ =
      (none, ⟨[urlA], [], 3, 4⟩) :=
  download_already_visited envOk urlA "documents" ⟨[urlA], [], 3, 4⟩ (by simp)

/-- C9: whatever a first `download_document_to_s3` call for URL A does — store
the blob, fail on an empty payload, a bad status or an exception — A is left
in the visited set, so every subsequent call for A in the same process
returns `None` and changes nothing; a failed download is never retried within
a run. -/
theorem download_failed_never_retried (env env2 : PersistEnv) (url folder folder2 : String)
    (st : PersistState) :
    download_document_to_s3 env2 url folder2 (download_document_to_s3 env url folder st).2 =
      (none, (download_document_to_s3 env url folder st).2) :=
  download_of_mem_processed env2 url folder2 _ (mem_processed_after env url folder st)

/-- C2 counterexample: an asset URL that hits the `int(time.time())` filename
fallback (a `/source` Kenya Law URL with fewer than six path segments) gets a
different stored-object key when the computation is repeated one second
later, with URL and (folder, year, month) context identical. -/
theorem s3Key_not_deterministic :
    s3KeyOf "https://kenyalaw.org/source" "documents" "2025" "06" 0 ≠
      s3KeyOf "https://kenyalaw.org/source" "documents" "2025" "06" 1 := by
  decide

/-- C2 amended: for every asset URL that does not hit the timestamp filename
fallback (the `/source` shape with at least six path segments, or any other
URL with a nonempty path basename), the stored-object key is a pure
deterministic function of the URL and the (folder, yearContext, monthContext)
context: computations at any two times agree. -/
theorem s3Key_deterministic (url folder yearCtx monthCtx : String) (t t2 : Nat)
    (h : timestampIndependent url = true) :
    s3KeyOf url folder yearCtx monthCtx t = s3KeyOf url folder yearCtx monthCtx t2 := by
  unfold s3KeyOf
  have hd : deriveFilename url t = deriveFilename url t2 := by
    unfold timestampIndependent at h
    unfold deriveFilename
    cases hc : containsSub url "/source" && containsSub url "kenyalaw.org" with
    | true =>
      rw [hc] at h
      simp only [if_true] at h ⊢
      have h6 : 6 ≤ (splitOnChar '/' (urlPathL url.data)).length := by
        simpa using h
      simp [h6]
    | false =>
      rw [hc] at h
      simp only [if_false] at h ⊢
      have hb : ¬ (basename (urlPath url) = "") := by
        simpa using h
      simp [hb]
  rw [hd]

/-- Witness for C2 amended: a well-shaped `/source` URL gets the same key at
two different clock readings. -/
theorem s3Key_deterministic_witness :
    s3KeyOf "https://new.kenyalaw.org/a/b/c/court1/2020/case9/source" "documents"
        "2024" "January" 5 =
      s3KeyOf "https://new.kenyalaw.org/a/b/c/court1/2020/case9/source" "documents"
        "2024" "January" 99 :=
  s3Key_deterministic _ "documents" "2024" "January" 5 99 (by decide)

/-- C1 counterexample: two persist calls for the same asset URL — the
serialization of a concurrent pair, legitimate because
`processed_urls_lock` makes the visited check-and-insert atomic and the loser
touches no further shared state — do not observe the same stored reference:
the first call returns the reference, the second returns `None`. -/
theorem persist_twice_not_same_ref :
    persistRun1.1 = some (s3Url "documents/2025/06/a.pdf") ∧ persistRun2.1 = none := by
  constructor <;> decide

/-- C1 amended: for two serialized-concurrent persist calls on an asset URL
not yet visited, whose key is fresh in the store, whose existence probe does
not error and whose download succeeds with a nonempty body, exactly one
fetch-and-store happens (the fetch counter rises by one and exactly the new
blob is stored): the first call returns the stored reference and the second
call returns `None` without changing anything. -/
theorem persist_twice_dedup (env : PersistEnv) (url folder key : String) (body : List Nat)
    (st : PersistState)
    (hk : s3KeyOf url folder (toString env.year) (month2 env.month) env.time = some key)
    (hnp : url ∉ st.processed)
    (hns : lget key st.store = none)
    (hpe : env.probeErr key = false)
    (hf : env.fetch url = some (200, body))
    (hb : body ≠ []) :
    download_document_to_s3 env url folder st =
      (some (s3Url key),
        { st with processed := url :: st.processed, store := (key, body) :: st.store,
                  probeCount := st.probeCount + 1, fetchCount := st.fetchCount + 1 }) ∧
    download_document_to_s3 env url folder (download_document_to_s3 env url folder st).2 =
      (none, (download_document_to_s3 env url folder st).2) := by
  have h1 : download_document_to_s3 env url folder st =
      (some (s3Url key),
        { st with processed := url :: st.processed, store := (key, body) :: st.store,
                  probeCount := st.probeCount + 1, fetchCount := st.fetchCount + 1 }) := by
    unfold download_document_to_s3
    rw [if_neg hnp, hk, hf]
    simp [hns, hpe, List.length_eq_zero, hb]
  refine ⟨h1, ?_⟩
  apply download_of_mem_processed
  rw [h1]
  exact List.mem_cons_self _ _

/-- Witness for C1 amended at a concrete URL, environment and fresh state. -/
theorem persist_twice_dedup_witness :
    download_document_to_s3 envOk urlA "documents" st0 =
      (some (s3Url "documents/2025/06/a.pdf"),
        { st0 with processed := urlA :: st0.processed,
                   store := ("documents/2025/06/a.pdf", [7]) :: st0.store,
                   probeCount := st0.probeCount + 1, fetchCount := st0.fetchCount + 1 }) ∧
    download_document_to_s3 envOk urlA "documents"
        (download_document_to_s3 envOk urlA "documents" st0).2 =
      (none, (download_document_to_s3 envOk urlA "documents" st0).2) :=
  persist_twice_dedup envOk urlA "documents" "documents/2025/06/a.pdf" [7] st0
    (by decide) (by decide) rfl rfl rfl (by decide)

/-- A `mark_as_processed` call is observed at its own key. -/
theorem lget_mark_self (key status : String) (e f : Option String) (l : Ledger) :
    lget key (mark_as_processed key status e f l) = some ⟨status, 0, e, f⟩ := by
  simp [mark_as_processed, lget]

/-- Removing the rows of another key does not change a lookup. -/
theorem lget_filter_ne (key k2 : String) (h : k2 ≠ key) (l : Ledger) :
    lget key (l.filter (fun p => !(p.1 == k2))) = lget key l := by
  induction l with
  | nil => rfl
  | cons p ps ih =>
    by_cases hp : p.1 = k2
    · have hpk : ¬ (p.1 = key) := fun hh => h (hp.symm.trans hh)
      simp [List.filter_cons, hp, lget, hpk, ih, h, Ne.symm h]
    · by_cases hk : p.1 = key <;>
        simp [List.filter_cons, hp, lget, hk, ih, h, Ne.symm h]

/-- A `mark_as_processed` call for another key does not change a lookup. -/
theorem lget_mark_ne (key k2 status : String) (e f : Option String) (l : Ledger)
    (h : k2 ≠ key) :
    lget key (mark_as_processed k2 status e f l) = lget key l := by
  simp only [mark_as_processed, lget, h, if_false]
  exact lget_filter_ne key k2 h l

/-- An `increment_retry_count` call for another key does not change a lookup. -/
theorem lget_increment_ne (key k2 : String) (h : k2 ≠ key) (l : Ledger) :
    lget key (increment_retry_count k2 l) = lget key l := by
  induction l with
  | nil => rfl
  | cons p ps ih =>
    simp only [increment_retry_count, List.map_cons] at ih ⊢
    by_cases hp : p.1 = k2
    · have hpk : ¬ (p.1 = key) := fun hh => h (hp.symm.trans hh)
      simp [lget, hp, hpk, ih, h, Ne.symm h]
    · by_cases hk : p.1 = key <;> simp [lget, hp, hk, ih, h, Ne.symm h]

/-- A `process_and_upsert` call for another key does not change a lookup. -/
theorem lget_process_ne (env : IndexEnv) (key k2 : String) (l : Ledger) (h : k2 ≠ key) :
    lget key (process_and_upsert env k2 l) = lget key l := by
  unfold process_and_upsert
  exact lget_mark_ne key k2 _ _ _ l h

/-- `increment_retry_count` does not change the keys column. -/
theorem ledgerKeys_increment (k2 : String) (l : Ledger) :
    ledgerKeys (increment_retry_count k2 l) = ledgerKeys l := by
  induction l with
  | nil => rfl
  | cons p ps ih =>
    simp only [increment_retry_count, ledgerKeys, List.map_cons] at ih ⊢
    by_cases hp : p.1 = k2 <;> simp [hp, ih]

/-- `mark_as_processed` keeps the keys column duplicate-free. -/
theorem nodupKeys_mark (key status : String) (e f : Option String) (l : Ledger)
    (h : NodupKeys l) : NodupKeys (mark_as_processed key status e f l) := by
  unfold NodupKeys ledgerKeys mark_as_processed at *
  rw [List.map_cons, List.nodup_cons]
  constructor
  · intro hmem
    obtain ⟨p, hp, hpk⟩ := List.mem_map.1 hmem
    obtain ⟨_, hcond⟩ := List.mem_filter.1 hp
    rw [hpk] at hcond
    simp at hcond
  · exact h.sublist (List.Sublist.map Prod.fst (List.filter_sublist l))

/-- `increment_retry_count` keeps the keys column duplicate-free. -/
theorem nodupKeys_increment (k2 : String) (l : Ledger) (h : NodupKeys l) :
    NodupKeys (increment_retry_count k2 l) := by
  unfold NodupKeys
  rw [ledgerKeys_increment]
  exact h

/-- `process_and_upsert` keeps the keys column duplicate-free. -/
theorem nodupKeys_process (env : IndexEnv) (k2 : String) (l : Ledger) (h : NodupKeys l) :
    NodupKeys (process_and_upsert env k2 l) := by
  unfold process_and_upsert
  exact nodupKeys_mark k2 _ _ _ l h

/-- With duplicate-free keys, every row of the looked-up key carries the
looked-up entry. -/
theorem entry_eq_of_lget (key : String) (e : Entry) :
    ∀ (l : Ledger), NodupKeys l → lget key l = some e →
      ∀ p ∈ l, p.1 = key → p.2 = e := by
  intro l
  induction l with
  | nil => intro _ _ p hp; exact absurd hp (List.not_mem_nil p)
  | cons q qs ih =>
    intro hnd hl p hp hpk
    have hnd2 := hnd
    unfold NodupKeys ledgerKeys at hnd2
    rw [List.map_cons, List.nodup_cons] at hnd2
    rcases List.mem_cons.1 hp with hpq | hpm
    · subst hpq
      unfold lget at hl
      rw [if_pos hpk] at hl
      exact Option.some.inj hl
    · by_cases hq : q.1 = key
      · exfalso
        apply hnd2.1
        rw [hq, ← hpk]
        exact List.mem_map.2 ⟨p, hpm, rfl⟩
      · unfold lget at hl
        rw [if_neg hq] at hl
        exact ih hnd2.2 hl p hpm hpk

/-- A key whose ledger row does not have status `failed` is not selected for
re-attempt. -/
theorem not_mem_failed_files (key : String) (e : Entry) (l : Ledger)
    (hnd : NodupKeys l) (hl : lget key l = some e) (hs : e.status ≠ "failed") :
    key ∉ get_failed_files l := by
  intro hmem
  unfold get_failed_files at hmem
  obtain ⟨p, hp, hpk⟩ := List.mem_map.1 hmem
  obtain ⟨hpl, hcond⟩ := List.mem_filter.1 hp
  have hstat : p.2.status = "failed" := by
    rw [Bool.and_eq_true] at hcond
    exact eq_of_beq hcond.1
  have : p.2 = e := entry_eq_of_lget key e l hnd hl p hpl hpk
  exact hs (this ▸ hstat)

/-- A key that already has a ledger row is not selected as a new file. -/
theorem not_mem_newFiles (key : String) (listing : List String) (l : Ledger)
    (h : (lget key l).isSome) :
    key ∉ newFiles listing l := by
  intro hmem
  unfold newFiles at hmem
  have hmem2 := List.take_subset _ _ hmem
  obtain ⟨_, hcond⟩ := List.mem_filter.1 hmem2
  rw [Bool.and_eq_true] at hcond
  have : already_processed key l = false := by
    simpa using hcond.2
  rw [already_processed, h] at this
  cases this

/-- Folding a step over a list preserves an invariant that every single step
preserves, provided every list element satisfies the step's side condition. -/
theorem foldl_preserves {α : Type} (P : Ledger → Prop) (Q : α → Prop)
    (step : Ledger → α → Ledger)
    (hstep : ∀ l a, Q a → P l → P (step l a)) :
    ∀ (ks : List α), (∀ a ∈ ks, Q a) → ∀ l, P l → P (ks.foldl step l) := by
  intro ks
  induction ks with
  | nil => intro _ l h; exact h
  | cons a as ih =>
    intro hks l h
    exact ih (fun b hb => hks b (List.mem_cons_of_mem a hb)) (step l a)
      (hstep l a (hks a (List.mem_cons_self a as)) h)

/-- A ledger row that does not have status `failed` survives one indexer
cycle untouched: its key is never handed to `process_and_upsert`, its entry
is preserved, and keys stay duplicate-free. -/
theorem runCycle_preserves_nonfailed (env : IndexEnv) (listing : List String)
    (key : String) (e : Entry) (l : Ledger)
    (hnd : NodupKeys l) (hl : lget key l = some e) (hs : e.status ≠ "failed") :
    key ∉ (runCycle env listing l).2 ∧
      lget key (runCycle env listing l).1 = some e ∧
      NodupKeys (runCycle env listing l).1 := by
  have hstep1 : ∀ (m : Ledger) (a : String), a ≠ key →
      (lget key m = some e ∧ NodupKeys m) →
      (lget key (process_and_upsert env a (increment_retry_count a m)) = some e ∧
        NodupKeys (process_and_upsert env a (increment_retry_count a m))) := by
    intro m a ha hP
    constructor
    · rw [lget_process_ne env key a _ ha, lget_increment_ne key a ha m]
      exact hP.1
    · exact nodupKeys_process env a _ (nodupKeys_increment a m hP.2)
  have hstep2 : ∀ (m : Ledger) (a : String), a ≠ key →
      (lget key m = some e ∧ NodupKeys m) →
      (lget key (process_and_upsert env a m) = some e ∧
        NodupKeys (process_and_upsert env a m)) := by
    intro m a ha hP
    exact ⟨by rw [lget_process_ne env key a m ha]; exact hP.1,
      nodupKeys_process env a m hP.2⟩
  have hretry : ∀ a ∈ (get_failed_files l).take 5, a ≠ key := by
    intro a ha hak
    exact not_mem_failed_files key e l hnd hl hs (hak ▸ List.take_subset _ _ ha)
  have h1 := foldl_preserves (fun m => lget key m = some e ∧ NodupKeys m) (fun a => a ≠ key)
    (fun acc k => process_and_upsert env k (increment_retry_count k acc)) hstep1
    ((get_failed_files l).take 5) hretry l ⟨hl, hnd⟩
  have hnews : ∀ a ∈ newFiles listing
      (((get_failed_files l).take 5).foldl
        (fun acc k => process_and_upsert env k (increment_retry_count k acc)) l), a ≠ key := by
    intro a ha hak
    subst hak
    exact not_mem_newFiles a listing _ (by rw [h1.1]; rfl) ha
  have h2 := foldl_preserves (fun m => lget key m = some e ∧ NodupKeys m) (fun a => a ≠ key)
    (fun acc k => process_and_upsert env k acc) hstep2
    (newFiles listing _) hnews _ h1
  refine ⟨?_, h2.1, h2.2⟩
  intro hmem
  rcases List.mem_append.1 hmem with hm | hm
  · exact hretry key hm rfl
  · exact hnews key hm rfl

/-- A ledger row that does not have status `failed` survives any number of
indexer cycles untouched. -/
theorem runCycles_preserves_nonfailed (envs : Nat → IndexEnv) (listings : Nat → List String)
    (key : String) (e : Entry) (hs : e.status ≠ "failed") :
    ∀ (n : Nat) (l : Ledger), NodupKeys l → lget key l = some e →
      key ∉ (runCycles envs listings n l).2 ∧
        lget key (runCycles envs listings n l).1 = some e ∧
        NodupKeys (runCycles envs listings n l).1 := by
  intro n
  induction n with
  | zero =>
    intro l hnd hl
    exact ⟨List.not_mem_nil key, hl, hnd⟩
  | succ m ih =>
    intro l hnd hl
    have hc := runCycle_preserves_nonfailed (envs m) (listings m) key e l hnd hl hs
    have hr := ih (runCycle (envs m) (listings m) l).1 hc.2.2 hc.2.1
    simp only [runCycles]
    refine ⟨?_, hr.2.1, hr.2.2⟩
    intro hmem
    rcases List.mem_append.1 hmem with hm | hm
    · exact hc.1 hm
    · exact hr.1 hm

/-- C3: a stored blob that downloads below the 50-byte minimum gets its
ledger entry marked status `skipped` with fileType `Small File`, and on every
later indexer cycle its key is neither selected for retry nor listed as new:
it is never passed to `process_and_upsert` again and its entry never
changes. -/
theorem small_blob_skipped_never_retried (env : IndexEnv) (key : String) (l : Ledger)
    (blob : List Nat) (hnd : NodupKeys l)
    (hget : env.getObject key = some blob) (hsmall : blob.length < 50) :
    lget key (process_and_upsert env key l) =
      some ⟨"skipped", 0, some "File too small", some "Small File"⟩ ∧
    ∀ (envs : Nat → IndexEnv) (listings : Nat → List String) (n : Nat),
      key ∉ (runCycles envs listings n (process_and_upsert env key l)).2 ∧
      lget key (runCycles envs listings n (process_and_upsert env key l)).1 =
        some ⟨"skipped", 0, some "File too small", some "Small File"⟩ := by
  have hout : processOutcome env key = ("skipped", some "File too small", some "Small File") := by
    unfold processOutcome
    rw [hget]
    simp [hsmall]
  have h1 : lget key (process_and_upsert env key l) =
      some ⟨"skipped", 0, some "File too small", some "Small File"⟩ := by
    unfold process_and_upsert
    rw [hout]
    exact lget_mark_self key "skipped" _ _ l
  refine ⟨h1, fun envs listings n => ?_⟩
  have hnd1 : NodupKeys (process_and_upsert env key l) := nodupKeys_process env key l hnd
  have h := runCycles_preserves_nonfailed envs listings key
    ⟨"skipped", 0, some "File too small", some "Small File"⟩ (by decide) n
    (process_and_upsert env key l) hnd1 h1
  exact ⟨h.1, h.2.1⟩

/-- Witness for C3: a concrete three-byte blob, then one full cycle over a
listing that still contains the key. -/
theorem small_blob_skipped_never_retried_witness :
    lget "k.pdf" (process_and_upsert envSmallBlob "k.pdf" []) =
      some ⟨"skipped", 0, some "File too small", some "Small File"⟩ ∧
    ("k.pdf" ∉ (runCycles (fun _ => envSmallBlob) (fun _ => ["k.pdf"]) 1
        (process_and_upsert envSmallBlob "k.pdf" [])).2 ∧
      lget "k.pdf" (runCycles (fun _ => envSmallBlob) (fun _ => ["k.pdf"]) 1
          (process_and_upsert envSmallBlob "k.pdf" [])).1 =
        some ⟨"skipped", 0, some "File too small", some "Small File"⟩) :=
  ⟨(small_blob_skipped_never_retried envSmallBlob "k.pdf" [] [1, 2, 3]
      List.nodup_nil rfl (by decide)).1,
    (small_blob_skipped_never_retried envSmallBlob "k.pdf" [] [1, 2, 3]
      List.nodup_nil rfl (by decide)).2 (fun _ => envSmallBlob) (fun _ => ["k.pdf"]) 1⟩

/-- C4: the code violates the claim, evaluated at a failing input. The key
`k.pdf`, status `failed` with retryCount 0 below the maximum, is selected for
re-attempt; after the re-attempt its retryCount is 0 again — not strictly
greater than before — because the `INSERT OR REPLACE` inside
`mark_as_processed` (called at the end of every `process_and_upsert`) omits
the `retry_count` column and so resets it to the DEFAULT 0, undoing the
`increment_retry_count` that the retry loop performed. -/
theorem reattempt_resets_retry_count :
    get_failed_files ledgerFailed = ["k.pdf"] ∧
    (lget "k.pdf" ledgerFailed).map Entry.retryCount = some 0 ∧
    (lget "k.pdf" (runCycle envDlFail [] ledgerFailed).1).map Entry.retryCount = some 0 := by
  decide

/-- C5: for a document that reaches the sub-batch upsert stage, the key is
marked `success` exactly when at least one sub-batch upsert succeeded, and
marked `skipped` with lastError `All upsert batches failed` when every
sub-batch failed. -/
theorem upsert_batch_policy (env : IndexEnv) (key : String) (l : Ledger)
    (blob : List Nat) (pages : List String)
    (hget : env.getObject key = some blob)
    (hsize : ¬ blob.length < 50)
    (hext : env.extractPages blob = some pages)
    (hne : pages ≠ [])
    (hlen : ¬ (trimS (String.intercalate " " pages)).length < 10)
    (hch : env.splitChunks (clean_text (String.intercalate " " pages)) ≠ []) :
    ((∃ i, i < ((env.splitChunks (clean_text (String.intercalate " " pages))).length +
          (UPSERT_BATCH - 1)) / UPSERT_BATCH ∧ env.batchOk key i = true) →
      lget key (process_and_upsert env key l) = some ⟨"success", 0, none, some "PDF"⟩) ∧
    ((∀ i, i < ((env.splitChunks (clean_text (String.intercalate " " pages))).length +
          (UPSERT_BATCH - 1)) / UPSERT_BATCH → env.batchOk key i = false) →
      lget key (process_and_upsert env key l) =
        some ⟨"skipped", 0, some "All upsert batches failed", some "Upsert Failed"⟩) := by
  have hpe : pages.isEmpty = false := by
    cases pages with
    | nil => exact absurd rfl hne
    | cons a as => rfl
  have hbody : ∀ (s : String) (e f : Option String), processOutcome env key = (s, e, f) →
      lget key (process_and_upsert env key l) = some ⟨s, 0, e, f⟩ := by
    intro s e f h
    unfold process_and_upsert
    rw [h]
    exact lget_mark_self key s e f l
  have hmid : processOutcome env key =
      if 0 < (List.range (((env.splitChunks (clean_text (String.intercalate " " pages))).length +
            (UPSERT_BATCH - 1)) / UPSERT_BATCH)).countP (fun i => env.batchOk key i) then
        ("success", none, some "PDF")
      else ("skipped", some "All upsert batches failed", some "Upsert Failed") := by
    unfold processOutcome
    simp only [hget, hext, if_neg hsize, hpe, Bool.false_eq_true, if_false]
    rw [if_neg hlen]
    rw [if_neg (fun hemp => hch (List.isEmpty_iff.1 hemp))]
  constructor
  · intro hex
    apply hbody
    obtain ⟨i, hi, hb⟩ := hex
    rw [hmid, if_pos (List.countP_pos_iff.2 ⟨i, List.mem_range.2 hi, hb⟩)]
  · intro hall
    apply hbody
    rw [hmid, if_neg]
    intro hpos
    obtain ⟨a, ha, hpa⟩ := List.countP_pos_iff.1 hpos
    rw [hall a (List.mem_range.1 ha)] at hpa
    cases hpa

/-- Witness for C5: 80 chunks make 4 sub-batches; sub-batches 1 and 2 succeed
(2 of 4) and the key is marked `success`. -/
theorem upsert_batch_policy_witness :
    lget "k.pdf" (process_and_upsert envRich "k.pdf" []) =
      some ⟨"success", 0, none, some "PDF"⟩ :=
  (upsert_batch_policy envRich "k.pdf" [] (List.replicate 60 0) ["This is a test document"]
      rfl (by decide) rfl (by decide) (by decide) (by decide)).1
    ⟨1, by decide, rfl⟩

/-- All ledger keys end in `.pdf`. -/
def PdfKeys (l : Ledger) : Prop := ∀ p ∈ l, endsWithS p.1 ".pdf" = true

/-- Marking a `.pdf` key keeps the all-pdf invariant. -/
theorem pdfKeys_mark (key status : String) (e f : Option String) (l : Ledger)
    (hk : endsWithS key ".pdf" = true) (h : PdfKeys l) :
    PdfKeys (mark_as_processed key status e f l) := by
  intro p hp
  rcases List.mem_cons.1 hp with h1 | h1
  · rw [h1]
    exact hk
  · exact h p (List.mem_of_mem_filter h1)

/-- `increment_retry_count` keeps the all-pdf invariant. -/
theorem pdfKeys_increment (k2 : String) (l : Ledger) (h : PdfKeys l) :
    PdfKeys (increment_retry_count k2 l) := by
  intro p hp
  obtain ⟨q, hq, hpq⟩ := List.mem_map.1 hp
  have hfst : p.1 = q.1 := by
    rw [← hpq]
    by_cases h2 : q.1 = k2 <;> simp [h2]
  rw [hfst]
  exact h q hq

/-- `process_and_upsert` on a `.pdf` key keeps the all-pdf invariant. -/
theorem pdfKeys_process (env : IndexEnv) (k2 : String) (l : Ledger)
    (hk : endsWithS k2 ".pdf" = true) (h : PdfKeys l) :
    PdfKeys (process_and_upsert env k2 l) := by
  unfold process_and_upsert
  exact pdfKeys_mark k2 _ _ _ l hk h

/-- Keys selected for retry come from the ledger, so they end in `.pdf` under
the invariant. -/
theorem mem_failed_pdf (l : Ledger) (h : PdfKeys l) (k : String)
    (hk : k ∈ get_failed_files l) : endsWithS k ".pdf" = true := by
  obtain ⟨p, hp, hpk⟩ := List.mem_map.1 hk
  rw [← hpk]
  exact h p (List.mem_of_mem_filter hp)

/-- Keys selected as new end in `.pdf` and come from the storage listing. -/
theorem mem_newFiles_pdf (listing : List String) (l : Ledger) (k : String)
    (hk : k ∈ newFiles listing l) : endsWithS k ".pdf" = true ∧ k ∈ listing := by
  have h2 := List.take_subset _ _ hk
  have h3 := List.mem_filter.1 h2
  refine ⟨?_, h3.1⟩
  have h4 := h3.2
  rw [Bool.and_eq_true] at h4
  exact h4.1

/-- Under the all-pdf invariant a non-pdf key has no ledger row. -/
theorem lget_none_of_pdfKeys (l : Ledger) (h : PdfKeys l) (k : String)
    (hk : endsWithS k ".pdf" = false) : lget k l = none := by
  induction l with
  | nil => rfl
  | cons p ps ih =>
    by_cases hp : p.1 = k
    · exfalso
      have h2 := h p (List.mem_cons_self p ps)
      rw [hp, hk] at h2
      cases h2
    · simp only [lget, hp, if_false]
      exact ih (fun q hq => h q (List.mem_cons_of_mem p hq))

/-- One indexer cycle preserves the all-pdf invariant, and every key it hands
to `process_and_upsert` ends in `.pdf`. -/
theorem runCycle_pdf (env : IndexEnv) (listing : List String) (l : Ledger) (h : PdfKeys l) :
    PdfKeys (runCycle env listing l).1 ∧
      ∀ k ∈ (runCycle env listing l).2, endsWithS k ".pdf" = true := by
  have hretry : ∀ a ∈ (get_failed_files l).take 5, endsWithS a ".pdf" = true :=
    fun a ha => mem_failed_pdf l h a (List.take_subset _ _ ha)
  have h1 := foldl_preserves PdfKeys (fun a => endsWithS a ".pdf" = true)
    (fun acc k => process_and_upsert env k (increment_retry_count k acc))
    (fun m a ha hm => pdfKeys_process env a _ ha (pdfKeys_increment a m hm))
    ((get_failed_files l).take 5) hretry l h
  have hnews : ∀ a ∈ newFiles listing
      (((get_failed_files l).take 5).foldl
        (fun acc k => process_and_upsert env k (increment_retry_count k acc)) l),
      endsWithS a ".pdf" = true :=
    fun a ha => (mem_newFiles_pdf listing _ a ha).1
  have h2 := foldl_preserves PdfKeys (fun a => endsWithS a ".pdf" = true)
    (fun acc k => process_and_upsert env k acc)
    (fun m a ha hm => pdfKeys_process env a m ha hm)
    (newFiles listing _) hnews _ h1
  refine ⟨h2, ?_⟩
  intro k hk
  rcases List.mem_append.1 hk with hm | hm
  · exact hretry k hm
  · exact hnews k hm

/-- Any number of indexer cycles preserves the all-pdf invariant, and every
key processed in any cycle ends in `.pdf`. -/
theorem runCycles_pdf (envs : Nat → IndexEnv) (listings : Nat → List String) :
    ∀ (n : Nat) (l : Ledger), PdfKeys l →
      PdfKeys (runCycles envs listings n l).1 ∧
        ∀ k ∈ (runCycles envs listings n l).2, endsWithS k ".pdf" = true := by
  intro n
  induction n with
  | zero =>
    intro l h
    exact ⟨h, fun k hk => absurd hk (List.not_mem_nil k)⟩
  | succ m ih =>
    intro l h
    have hc := runCycle_pdf (envs m) (listings m) l h
    have hr := ih (runCycle (envs m) (listings m) l).1 hc.1
    simp only [runCycles]
    refine ⟨hr.1, ?_⟩
    intro k hk
    rcases List.mem_append.1 hk with hm | hm
    · exact hc.2 k hm
    · exact hr.2 k hm

/-- C10: every key selected as new in a cycle ends in `.pdf` and is a listed
storage key; and starting from a ledger whose keys all end in `.pdf` (the
empty initial ledger included), a stored key that does not end in `.pdf` is
never passed to `process_and_upsert` in any number of cycles and never
receives a ledger entry. -/
theorem non_pdf_never_processed (l : Ledger) (hl : PdfKeys l) :
    (∀ (listing : List String) (m : Ledger) (k : String),
        k ∈ newFiles listing m → endsWithS k ".pdf" = true ∧ k ∈ listing) ∧
    ∀ (envs : Nat → IndexEnv) (listings : Nat → List String) (n : Nat) (k : String),
      endsWithS k ".pdf" = false →
        k ∉ (runCycles envs listings n l).2 ∧
        lget k (runCycles envs listings n l).1 = none := by
  refine ⟨fun listing m k hk => mem_newFiles_pdf listing m k hk, ?_⟩
  intro envs listings n k hk
  have h := runCycles_pdf envs listings n l hl
  refine ⟨fun hmem => ?_, lget_none_of_pdfKeys _ h.1 k hk⟩
  have h2 := h.2 k hmem
  rw [hk] at h2
  cases h2

/-- Witness for C10: a `.doc` key in the listing is not processed in a cycle
over the empty ledger and has no ledger row afterwards. -/
theorem non_pdf_never_processed_witness :
    "a.doc" ∉ (runCycles (fun _ => envRich) (fun _ => ["a.doc", "b.pdf"]) 1 []).2 ∧
      lget "a.doc" (runCycles (fun _ => envRich) (fun _ => ["a.doc", "b.pdf"]) 1 []).1 = none :=
  (non_pdf_never_processed [] (fun p hp => absurd hp (List.not_mem_nil p))).2
    (fun _ => envRich) (fun _ => ["a.doc", "b.pdf"]) 1 "a.doc" (by decide)

end Scrapper
